import Mathlib

/-!
Verification of the bulk-squoosh bulk compression pipeline.

This file gives a shallow embedding of the `BulkCompress` component
(the revision with resize and output-naming support, which the spec
adopts as the intended behavior) and proves or refutes the spec's
claims about it.

The embedding models:
  * the per-file record (`ProcessedFile`), its status lifecycle and the
    store of records (`List ProcessedFile`);
  * the per-run pipeline driver `processFiles`, including the
    single-flight guard, the run-start snapshot of the record list and
    of the configuration, the per-record dispatch, and the per-record
    success/failure updates (the decode/resize/encode round trip through
    the worker bridge is abstracted by an outcome oracle, one outcome
    per record index);
  * the resize geometry computation of `compressFile` over exact
    rational arithmetic, with JS `Math.round` modelled as
    floor (x + 1/2);
  * the output-name derivation (prefix + stripped original name +
    suffix + "." + mime subtype);
  * the derived statistics `getCompletedCount` and `getTotalSaved`,
    including the JS truthiness test on `f.resultSize`;
  * a small-step relation `Step` capturing exactly the record-store
    mutations the component performs, and reachability from the empty
    store;
  * for the clear-during-flight scenario, a separate model of the JS
    array-assignment semantics (`jsAssign`, object spread of a possibly
    undefined element) used by the completion callback, together with
    the fact that `clearAll` never aborts the in-flight request's
    cancellation token.
-/

/-- Lifecycle status of one file record
(source: `status: 'pending' | 'processing' | 'done' | 'error'`). -/
inductive Status
  | pending
  | processing
  | done
  | error
deriving DecidableEq

/-- The immutable data of an input file the model needs: its name and
its byte size (source: the `File` handle, fields `name` and `size`). -/
structure FileInfo where
  name : String
  size : Nat
deriving DecidableEq

/-- One per-file processing record (source: `interface ProcessedFile`).
The result blob, its object URL and its size are always set together by
the completion update, so the model keeps only `resultSize` for them. -/
structure ProcessedFile where
  original : FileInfo
  status : Status
  resultSize : Option Nat
  error : Option String
  outputName : Option String
deriving DecidableEq

/-- Output format identifier (source: `EncoderType`, the keys of the
format dropdown: mozJPEG, webP, avif, oxiPNG, jxl). -/
inductive EncoderType
  | mozJPEG
  | webP
  | avif
  | oxiPNG
  | jxl
deriving DecidableEq

/-- Resize mode (source: `mode: 'dimensions' | 'scale'`). -/
inductive ResizeMode
  | scale
  | dimensions
deriving DecidableEq

/-- Resize configuration (source: `State['resize']`).  The numeric
fields come from `parseInt` on text inputs, so they are integers. -/
structure ResizeSettings where
  enabled : Bool
  width : Int
  height : Int
  maintainAspectRatio : Bool
  scale : Int
  mode : ResizeMode
deriving DecidableEq

/-- Output naming configuration (source: `State['output']`, fields
`prefix` and `suffix`; renamed here because `prefix` is a Lean
keyword). -/
structure OutputSettings where
  prefixStr : String
  suffixStr : String
deriving DecidableEq

/-- The user-selected pipeline parameters (the spec's `PipelineConfig`;
source: the `selectedFormat`, `quality`, `resize` and `output` fields of
the component state). -/
structure PipelineConfig where
  selectedFormat : EncoderType
  quality : Int
  resize : ResizeSettings
  output : OutputSettings
deriving DecidableEq

/-- The component state the driver reads and writes (source: `State`
plus the `processing` flag). -/
structure ComponentState where
  processedFiles : List ProcessedFile
  processing : Bool
  config : PipelineConfig
deriving DecidableEq

/-- Terminal outcome of one record's decode/resize/encode round trip
through the compute bridge: either a result blob of the given byte
size, or a failure whose `String(e)` rendering is the given message. -/
inductive Outcome
  | ok (size : Nat)
  | err (msg : String)
deriving DecidableEq

/-- One compute-bridge dispatch issued by the driver: the record index
and the configuration values passed to `compressFile`. -/
structure Dispatch where
  index : Nat
  format : EncoderType
  quality : Int
  resize : ResizeSettings
deriving DecidableEq

/-! ## String helpers: extension stripping and mime subtype -/

/-- Core of extension stripping, on the reversed character list: drop a
trailing run of characters other than a dot or a slash together with the
dot right before it, provided the run is nonempty.  This is the effect
of the source's `name.replace(/\.[^/.]+$/, "")`. -/
def stripExtCore (rcs : List Char) : List Char :=
  let ext := rcs.takeWhile (fun c => c ≠ '.' && c ≠ '/')
  match rcs.drop ext.length with
  | '.' :: rest => if ext.isEmpty then rcs else rest
  | _ => rcs

/-- Strip the final `.ext` from a file name exactly as the source's
regex replace does (source: `file.name.replace(/\.[^/.]+$/, "")`). -/
def stripExtension (s : String) : String :=
  ⟨(stripExtCore s.data.reverse).reverse⟩

/-- Subtype of a mime type string (source: `mimeType.split('/')[1]`). -/
def mimeSubtype (s : String) : String :=
  match s.splitOn "/" with
  | _ :: sub :: _ => sub
  | _ => ""

/-! ## Resize geometry -/

/-- JS `Math.round`: round half toward positive infinity. -/
def jsRound (q : ℚ) : ℤ :=
  ⌊q + 1 / 2⌋

/-- Target geometry computation of `compressFile` (source lines
245-274): scale mode rounds each axis independently; dimensions mode
with aspect-ratio preservation picks the limiting axis by the strict
comparison `requestedWidth / requestedHeight > aspect`; afterwards both
axes are clamped to a minimum of 1.  When resize is disabled the source
dimensions pass through untouched. -/
def computeGeometry (rs : ResizeSettings) (w h : Nat) : Int × Int :=
  if rs.enabled then
    let p : Int × Int :=
      match rs.mode with
      | ResizeMode.scale =>
          (jsRound ((w : ℚ) * ((rs.scale : ℚ) / 100)),
           jsRound ((h : ℚ) * ((rs.scale : ℚ) / 100)))
      | ResizeMode.dimensions =>
          if rs.maintainAspectRatio then
            if (rs.width : ℚ) / (rs.height : ℚ) > (w : ℚ) / (h : ℚ) then
              (jsRound ((rs.height : ℚ) * ((w : ℚ) / (h : ℚ))), rs.height)
            else
              (rs.width, jsRound ((rs.width : ℚ) / ((w : ℚ) / (h : ℚ))))
          else
            (rs.width, rs.height)
    (max 1 p.1, max 1 p.2)
  else
    ((w : Int), (h : Int))

/-! ## The pipeline driver

The source's `processFiles` destructures `processedFiles`,
`selectedFormat`, `quality`, `resize` and `output` from the component
state once, before the loop: both the record list walked and the
configuration used are run-start snapshots.  Each loop iteration reads
`processedFiles[i]` from that snapshot, skips it unless its snapshot
status is `'pending'`, otherwise marks index `i` processing in the
current store, dispatches `compressFile`, and on settlement replaces
index `i` of the current store with a whole-record update (object
spread plus the new fields).  All store updates go through `setState`
with a copied array, modelled as functional `List.set`. -/

/-- A freshly appended record (source: `{ original: f, status: 'pending' }`
in the constructor and in `onFileChange`). -/
def freshPending (f : FileInfo) : ProcessedFile :=
  { original := f
    status := Status.pending
    resultSize := none
    error := none
    outputName := none }

/-- The `updateFileStatus(i, 'processing')` call: replace index `i` of
the current store with a copy whose status is `'processing'`
(source lines 221-227). -/
def applyMark (store : List ProcessedFile) (i : Nat) : List ProcessedFile :=
  match store[i]? with
  | some cur => store.set i { cur with status := Status.processing }
  | none => store

/-- The success completion: replace index `i` of the current store with
a copy carrying status `'done'`, the result size and the derived output
name (source lines 170-181). -/
def applyDone (store : List ProcessedFile) (i : Nat) (sz : Nat) (nm : String) :
    List ProcessedFile :=
  match store[i]? with
  | some cur =>
      store.set i
        { cur with
          status := Status.done
          resultSize := some sz
          outputName := some nm }
  | none => store

/-- The failure completion: replace index `i` of the current store with
a copy carrying status `'error'` and the message `String(e)`
(source lines 182-193). -/
def applyFail (store : List ProcessedFile) (i : Nat) (msg : String) :
    List ProcessedFile :=
  match store[i]? with
  | some cur =>
      store.set i { cur with status := Status.error, error := some msg }
  | none => store

/-- Output-name derivation performed at a record's completion (source
lines 165-168): mime subtype of the snapshot format's encoder, original
name with its extension stripped, surrounded by the snapshot prefix and
suffix.  The encoder registry lives outside the given sources, so the
mime type of each format is kept abstract as the function `m`. -/
def mkOutputName (cfg : PipelineConfig) (m : EncoderType → String)
    (origName : String) : String :=
  cfg.output.prefixStr ++ stripExtension origName ++ cfg.output.suffixStr
    ++ "." ++ mimeSubtype (m cfg.selectedFormat)

/-- One iteration of the `processFiles` loop at index `i`: the pending
test reads the run-start snapshot `snap`; the store updates and the
dispatch happen on the current store.  Returns the new store and the
compute-bridge dispatch issued, if any. -/
def runIter (o : Nat → Outcome) (m : EncoderType → String)
    (cfg : PipelineConfig) (snap : List ProcessedFile) (i : Nat)
    (store : List ProcessedFile) : List ProcessedFile × Option Dispatch :=
  match snap[i]? with
  | none => (store, none)
  | some fd =>
      if fd.status = Status.pending then
        match o i with
        | Outcome.ok sz =>
            (applyDone (applyMark store i) i sz (mkOutputName cfg m fd.original.name),
             some ⟨i, cfg.selectedFormat, cfg.quality, cfg.resize⟩)
        | Outcome.err msg =>
            (applyFail (applyMark store i) i msg,
             some ⟨i, cfg.selectedFormat, cfg.quality, cfg.resize⟩)
      else (store, none)

/-- A segment of the `processFiles` loop: `n` iterations starting at
index `i`.  The full loop is `runSeg o m cfg snap 0 snap.length snap`;
splitting it in two segments lets an external event (an append, a
configuration change) be interleaved at a loop boundary. -/
def runSeg (o : Nat → Outcome) (m : EncoderType → String)
    (cfg : PipelineConfig) (snap : List ProcessedFile) :
    Nat → Nat → List ProcessedFile → List ProcessedFile × List Dispatch
  | _, 0, store => (store, [])
  | i, n + 1, store =>
      let s1 := runIter o m cfg snap i store
      let s2 := runSeg o m cfg snap (i + 1) n s1.1
      (s2.1, s1.2.toList ++ s2.2)

/-- The full run trigger (source `processFiles`, lines 149-196): a
no-op when a run is already active; otherwise snapshot the record list
and the configuration, walk every index of the snapshot, and finally
reset the processing flag.  Also returns the list of compute-bridge
dispatches the run issued, in order. -/
def processFiles (o : Nat → Outcome) (m : EncoderType → String)
    (s : ComponentState) : ComponentState × List Dispatch :=
  if s.processing then (s, [])
  else
    let snap := s.processedFiles
    let r := runSeg o m s.config snap 0 snap.length snap
    ({ s with processedFiles := r.1, processing := false }, r.2)

/-- Append one new file to the store (source `onFileChange`): the new
record starts pending. -/
def appendFile (s : ComponentState) (f : FileInfo) : ComponentState :=
  { s with processedFiles := s.processedFiles ++ [freshPending f] }

/-- A run during which one file is appended after `k` loop iterations:
the append extends the current store, while the loop keeps walking the
run-start snapshot.  Models `onFileChange` firing while `processFiles`
is between two records (its own `processFiles` call is the no-op
branch, so only the append is visible). -/
def runWithMidAppend (o : Nat → Outcome) (m : EncoderType → String)
    (cfg : PipelineConfig) (snap : List ProcessedFile) (k : Nat)
    (d : ProcessedFile) : List ProcessedFile × List Dispatch :=
  let r1 := runSeg o m cfg snap 0 k snap
  let r2 := runSeg o m cfg snap k (snap.length - k) (r1.1 ++ [d])
  (r2.1, r1.2 ++ r2.2)

/-- A run during which the user changes the configuration after `k`
loop iterations (source: the `onFormatChange` / `onQualityChange` /
resize / naming handlers, which `setState` new configuration fields):
only the component state's configuration changes; the loop keeps using
the locals it destructured at run start. -/
def runWithMidConfigChange (o : Nat → Outcome) (m : EncoderType → String)
    (s : ComponentState) (k : Nat) (cfg1 : PipelineConfig) :
    ComponentState × List Dispatch :=
  if s.processing then (s, [])
  else
    let snap := s.processedFiles
    let r1 := runSeg o m s.config snap 0 k snap
    let r2 := runSeg o m s.config snap k (snap.length - k) r1.1
    ({ s with processedFiles := r2.1, processing := false, config := cfg1 },
     r1.2 ++ r2.2)

/-- What one loop iteration leaves at its own index, as a function of
the record and its outcome: a pending record becomes done (with result
size and output name) or errored (with message); any other record is
left untouched. -/
def processedRecord (fd : ProcessedFile) (out : Outcome) (nm : String) :
    ProcessedFile :=
  if fd.status = Status.pending then
    match out with
    | Outcome.ok sz =>
        { fd with
          status := Status.done
          resultSize := some sz
          outputName := some nm }
    | Outcome.err msg => { fd with status := Status.error, error := some msg }
  else fd

/-- The indices the loop dispatches, read off the snapshot alone. -/
def pendingIndices (snap : List ProcessedFile) : Nat → Nat → List Nat
  | _, 0 => []
  | i, n + 1 =>
      (match snap[i]? with
       | some fd => if fd.status = Status.pending then [i] else []
       | none => []) ++ pendingIndices snap (i + 1) n

/-! ## Derived statistics -/

/-- Accumulator step of `getTotalSaved` (source lines 386-393): a record
contributes `original.size - resultSize` exactly when its status is
`'done'` and `f.resultSize` is truthy, that is, present and nonzero. -/
def savedOf (acc : Int) (f : ProcessedFile) : Int :=
  match f.resultSize with
  | some sz =>
      if f.status = Status.done ∧ sz ≠ 0 then
        acc + ((f.original.size : Int) - (sz : Int))
      else acc
  | none => acc

/-- Total bytes saved as the component computes it (source
`getTotalSaved`, a `reduce` from 0). -/
def getTotalSaved (files : List ProcessedFile) : Int :=
  files.foldl savedOf 0

/-- Number of done records as the component computes it (source
`getCompletedCount`). -/
def getCompletedCount (files : List ProcessedFile) : Nat :=
  (files.filter (fun f => decide (f.status = Status.done))).length

/-- Bytes saved as the spec's `BatchStats` formula states it: the sum
of `original.byteSize - result.byteSize` over all records whose status
is Done (a Done record's result size is read as 0 if absent). -/
def specBytesSaved (files : List ProcessedFile) : Int :=
  ((files.filter (fun f => decide (f.status = Status.done))).map
    (fun f => (f.original.size : Int) - ((f.resultSize.getD 0 : Nat) : Int))).sum

/-- Bytes saved as the amended claim states it: the sum of
`original.byteSize - result.byteSize` over the Done records whose
result size is present and nonzero. -/
def specBytesSavedNZ (files : List ProcessedFile) : Int :=
  ((files.filter (fun f =>
      decide (f.status = Status.done ∧ f.resultSize ≠ none ∧ f.resultSize ≠ some 0))).map
    (fun f => (f.original.size : Int) - ((f.resultSize.getD 0 : Nat) : Int))).sum

/-- Done-record count as the spec states it. -/
def specDoneCount (files : List ProcessedFile) : Nat :=
  files.countP (fun f => decide (f.status = Status.done))

/-! ## Store mutations as a small-step relation

Every mutation the component performs on the record store is one of:
appending a fresh pending record (constructor and `onFileChange`),
`updateFileStatus(i, 'processing')` on a record the run just found
pending, the done/error completion `setState`s on the record the run
just marked processing, and `clearAll` (whose button is disabled while
a run is active, so it fires on an idle store).  The side conditions on
the mark and completion steps record the loop's control flow: a record
is marked only when still pending, and settled only from processing. -/

/-- One store mutation of the component. -/
inductive Step : List ProcessedFile → List ProcessedFile → Prop
  | append (s : List ProcessedFile) (f : FileInfo) :
      Step s (s ++ [freshPending f])
  | markProcessing (s : List ProcessedFile) (i : Nat) (r : ProcessedFile)
      (h : s[i]? = some r) (hp : r.status = Status.pending) :
      Step s (s.set i { r with status := Status.processing })
  | completeDone (s : List ProcessedFile) (i : Nat) (r : ProcessedFile)
      (sz : Nat) (nm : String)
      (h : s[i]? = some r) (hp : r.status = Status.processing) :
      Step s (s.set i
        { r with
          status := Status.done
          resultSize := some sz
          outputName := some nm })
  | completeError (s : List ProcessedFile) (i : Nat) (r : ProcessedFile)
      (msg : String)
      (h : s[i]? = some r) (hp : r.status = Status.processing) :
      Step s (s.set i { r with status := Status.error, error := some msg })
  | clear (s : List ProcessedFile) : Step s []

/-- Record stores reachable from the initial empty store by the
component's mutations. -/
inductive Reachable : List ProcessedFile → Prop
  | init : Reachable []
  | next {s s' : List ProcessedFile} :
      Reachable s → Step s s' → Reachable s'

/-- The spec's per-record lifecycle invariant: a result is present iff
the status is Done, an error message is present iff the status is
Error, and a Pending or Processing record carries neither. -/
def RecordInvariant (s : List ProcessedFile) : Prop :=
  ∀ (i : Nat) (r : ProcessedFile), s[i]? = some r →
    (r.resultSize ≠ none ↔ r.status = Status.done) ∧
    (r.error ≠ none ↔ r.status = Status.error) ∧
    (r.status = Status.pending ∨ r.status = Status.processing →
      r.resultSize = none ∧ r.error = none)

/-- The allowed status transitions: Pending to Processing, Processing
to Done, Processing to Error. -/
def StatusEdge (a b : Status) : Prop :=
  (a = Status.pending ∧ b = Status.processing) ∨
  (a = Status.processing ∧ b = Status.done) ∨
  (a = Status.processing ∧ b = Status.error)

/-- A store mutation never regresses a record: any record present
before and after either keeps its status or follows an allowed
transition. -/
def MonotoneStep (s s' : List ProcessedFile) : Prop :=
  ∀ (i : Nat) (r r' : ProcessedFile), s[i]? = some r → s'[i]? = some r' →
    r'.status = r.status ∨ StatusEdge r.status r'.status

/-! ## The clear-during-flight scenario, with JS array semantics

The completion callback of an in-flight record runs
`newFiles[i] = { ...newFiles[i], status: 'done', ... }` on a copy of
whatever `processedFiles` is at that moment.  If `clearAll` ran in
between, that array is empty: `newFiles[i]` is `undefined`, the spread
of `undefined` yields an empty object, and the assignment at index `i`
extends the array.  The model below reproduces those JS semantics with
records whose every field is optional. -/

/-- A JS `ProcessedFile` object in which any field may be absent (the
spread of `undefined` produces an object with no fields at all). -/
structure JsFile where
  original : Option FileInfo
  status : Option Status
  resultSize : Option Nat
  error : Option String
  outputName : Option String
deriving DecidableEq

/-- JS array assignment `arr[i] = v`: in range it replaces the element,
out of range it pads with holes (`undefined`) and appends. -/
def jsAssign (st : List (Option JsFile)) (i : Nat) (v : JsFile) :
    List (Option JsFile) :=
  if i < st.length then st.set i (some v)
  else st ++ List.replicate (i - st.length) none ++ [some v]

/-- The object `{ ...old, status: v }` where `old` may be undefined. -/
def jsSpreadStatus (old : Option JsFile) (v : Status) : JsFile :=
  match old with
  | some r => { r with status := some v }
  | none =>
      { original := none
        status := some v
        resultSize := none
        error := none
        outputName := none }

/-- The object `{ ...old, status: 'done', resultBlob, resultUrl,
resultSize, outputName }` where `old` may be undefined. -/
def jsSpreadDone (old : Option JsFile) (sz : Nat) (nm : String) : JsFile :=
  match old with
  | some r =>
      { r with
        status := some Status.done
        resultSize := some sz
        outputName := some nm }
  | none =>
      { original := none
        status := some Status.done
        resultSize := some sz
        error := none
        outputName := some nm }

/-- `updateFileStatus(i, 'processing')` under JS array semantics. -/
def jsMark (st : List (Option JsFile)) (i : Nat) : List (Option JsFile) :=
  jsAssign st i (jsSpreadStatus ((st[i]?).getD none) Status.processing)

/-- The success completion under JS array semantics. -/
def jsDone (st : List (Option JsFile)) (i : Nat) (sz : Nat) (nm : String) :
    List (Option JsFile) :=
  jsAssign st i (jsSpreadDone ((st[i]?).getD none) sz nm)

/-- The pieces of component state the clear-during-flight scenario
observes: the record array, the processing flag, and the `aborted`
flag of the in-flight `compressFile` call's cancellation token
(`new AbortController().signal`, created fresh at dispatch). -/
structure C1State where
  files : List (Option JsFile)
  processing : Bool
  inFlightAborted : Bool
deriving DecidableEq

/-- The `clearAll` handler (source lines 364-369): revoke the result
URLs, empty the record list and reset the processing flag.  It holds no
reference to any `AbortController`, and no call of `abort()` occurs
anywhere in the component, so the in-flight token's `aborted` flag is
untouched. -/
def c1ClearAll (w : C1State) : C1State :=
  { w with files := [], processing := false }

/-- The in-flight record's success completion arriving: the `setState`
of source lines 170-181, applied to whatever the record array holds at
that moment, at the record's dispatch index. -/
def c1Complete (i : Nat) (sz : Nat) (nm : String) (w : C1State) : C1State :=
  { w with files := jsDone w.files i sz nm }

/-- The concrete single-record input of the scenario. -/
def c1File : FileInfo :=
  { name := "photo.jpg", size := 1000 }

/-- The store as the run trigger finds it: one pending record. -/
def c1Store0 : List (Option JsFile) :=
  [some
    { original := some c1File
      status := some Status.pending
      resultSize := none
      error := none
      outputName := none }]

/-- The scenario trace: the run marks record 0 processing and
dispatches `compressFile` (token fresh, not aborted); `clearAll` runs
while the request is in flight; then the request's result arrives and
its completion callback fires. -/
def c1Run : C1State :=
  c1Complete 0 420 "photo.jpeg"
    (c1ClearAll
      { files := jsMark c1Store0 0
        processing := true
        inFlightAborted := false })

/-! ## Concrete instances used by witnesses and counterexamples -/

/-- A sample mime-type table for the encoder registry.  The registry
itself (`encoderMap` of `feature-meta`) lives outside the given
sources; the driver theorems hold for every table, and witnesses use
this one. -/
def mimeM : EncoderType → String
  | EncoderType.mozJPEG => "image/jpeg"
  | EncoderType.webP => "image/webp"
  | EncoderType.avif => "image/avif"
  | EncoderType.oxiPNG => "image/png"
  | EncoderType.jxl => "image/jxl"

/-- The component's initial resize settings (source constructor). -/
def rsInit : ResizeSettings :=
  { enabled := false
    width := 1920
    height := 1080
    maintainAspectRatio := true
    scale := 100
    mode := ResizeMode.scale }

/-- A sample configuration: the constructor defaults with a naming
prefix and suffix set. -/
def cfgA : PipelineConfig :=
  { selectedFormat := EncoderType.mozJPEG
    quality := 75
    resize := rsInit
    output := { prefixStr := "img-", suffixStr := "-opt" } }

/-- A second configuration, differing from `cfgA` in its quality. -/
def cfgB : PipelineConfig :=
  { cfgA with quality := 90 }

/-- Sample input files. -/
def fileA : FileInfo := { name := "a.png", size := 500 }

def fileB : FileInfo := { name := "b.png", size := 600 }

def fileC : FileInfo := { name := "c.png", size := 700 }

def fileD : FileInfo := { name := "d.png", size := 800 }

/-- An outcome oracle under which every record encodes to 5 bytes. -/
def oracleOk : Nat → Outcome := fun _ => Outcome.ok 5

/-- The isolation scenario's oracle: A and C succeed, B's decode fails
with the message the source constructs
(`String(new Error('Could not decode image'))`). -/
def oracleC4 : Nat → Outcome
  | 0 => Outcome.ok 300
  | 1 => Outcome.err "Error: Could not decode image"
  | _ => Outcome.ok 200

/-- Three pending records A, B, C appended in that order, idle. -/
def stateABC : ComponentState :=
  { processedFiles := [freshPending fileA, freshPending fileB, freshPending fileC]
    processing := false
    config := cfgA }

/-- Two pending records, idle, configuration `cfgA`. -/
def stateAB : ComponentState :=
  { processedFiles := [freshPending fileA, freshPending fileB]
    processing := false
    config := cfgA }

/-- A store whose single record is already done: no record pending. -/
def stateDoneOnly : ComponentState :=
  { processedFiles :=
      [{ original := fileA
         status := Status.done
         resultSize := some 120
         error := none
         outputName := some "img-a-opt.jpeg" }]
    processing := false
    config := cfgA }

/-- The component state while a run is active. -/
def stateActive : ComponentState :=
  { stateAB with processing := true }

/-- The reachable store refuting the claimed bytes-saved formula: one
Done record whose encode produced an empty (0-byte) blob.  It is
reached by appending the file, marking it processing and completing it
with a 0-byte result. -/
def c6Bad : List ProcessedFile :=
  [{ original := { name := "pic.png", size := 10 }
     status := Status.done
     resultSize := some 0
     error := none
     outputName := some "img-pic-opt.jpeg" }]

/-- The resize settings of the spec's end-to-end scenario: dimensions
mode, 1000 by 1000, aspect ratio maintained. -/
def rsDim1000 : ResizeSettings :=
  { enabled := true
    width := 1000
    height := 1000
    maintainAspectRatio := true
    scale := 100
    mode := ResizeMode.dimensions }

/-! ## Helper lemmas about the run loop -/

theorem applyMark_length (store : List ProcessedFile) (i : Nat) :
    (applyMark store i).length = store.length := by
  unfold applyMark
  cases store[i]? <;> simp

theorem applyDone_length (store : List ProcessedFile) (i sz : Nat) (nm : String) :
    (applyDone store i sz nm).length = store.length := by
  unfold applyDone
  cases store[i]? <;> simp

theorem applyFail_length (store : List ProcessedFile) (i : Nat) (msg : String) :
    (applyFail store i msg).length = store.length := by
  unfold applyFail
  cases store[i]? <;> simp

theorem runIter_length (o : Nat → Outcome) (m : EncoderType → String)
    (cfg : PipelineConfig) (snap : List ProcessedFile) (i : Nat)
    (store : List ProcessedFile) :
    ((runIter o m cfg snap i store).1).length = store.length := by
  unfold runIter
  cases snap[i]? with
  | none => rfl
  | some fd =>
      by_cases hp : fd.status = Status.pending
      · cases o i <;>
          simp [hp, applyDone_length, applyFail_length, applyMark_length]
      · simp [hp]

theorem runSeg_length (o : Nat → Outcome) (m : EncoderType → String)
    (cfg : PipelineConfig) (snap : List ProcessedFile) :
    ∀ (n i : Nat) (store : List ProcessedFile),
      ((runSeg o m cfg snap i n store).1).length = store.length := by
  intro n
  induction n with
  | zero => intro i store; rfl
  | succ n ih =>
      intro i store
      simp only [runSeg]
      rw [ih]
      exact runIter_length o m cfg snap i store

theorem applyMark_getElem_ne (store : List ProcessedFile) (i j : Nat)
    (hne : i ≠ j) : (applyMark store i)[j]? = store[j]? := by
  unfold applyMark
  cases store[i]? <;> simp [List.getElem?_set_ne hne]

theorem applyDone_getElem_ne (store : List ProcessedFile) (i j sz : Nat)
    (nm : String) (hne : i ≠ j) : (applyDone store i sz nm)[j]? = store[j]? := by
  unfold applyDone
  cases store[i]? <;> simp [List.getElem?_set_ne hne]

theorem applyFail_getElem_ne (store : List ProcessedFile) (i j : Nat)
    (msg : String) (hne : i ≠ j) : (applyFail store i msg)[j]? = store[j]? := by
  unfold applyFail
  cases store[i]? <;> simp [List.getElem?_set_ne hne]

theorem runIter_fst_getElem_ne (o : Nat → Outcome) (m : EncoderType → String)
    (cfg : PipelineConfig) (snap : List ProcessedFile) (i j : Nat)
    (store : List ProcessedFile) (hne : i ≠ j) :
    ((runIter o m cfg snap i store).1)[j]? = store[j]? := by
  unfold runIter
  cases snap[i]? with
  | none => rfl
  | some fd =>
      by_cases hp : fd.status = Status.pending
      · cases o i <;>
          simp [hp, applyDone_getElem_ne, applyFail_getElem_ne,
            applyMark_getElem_ne, hne]
      · simp [hp]

theorem runSeg_untouched (o : Nat → Outcome) (m : EncoderType → String)
    (cfg : PipelineConfig) (snap : List ProcessedFile) :
    ∀ (n i j : Nat) (store : List ProcessedFile),
      (j < i ∨ snap.length ≤ j) →
      ((runSeg o m cfg snap i n store).1)[j]? = store[j]? := by
  intro n
  induction n with
  | zero => intro i j store _; rfl
  | succ n ih =>
      intro i j store hj
      simp only [runSeg]
      rw [ih (i + 1) j _ (by omega)]
      rcases hj with hj | hj
      · exact runIter_fst_getElem_ne o m cfg snap i j store (by omega)
      · unfold runIter
        cases h : snap[i]? with
        | none => rfl
        | some fd =>
            have hi : i < snap.length := (List.getElem?_eq_some.mp h).1
            have hne : i ≠ j := by omega
            by_cases hp : fd.status = Status.pending
            · cases o i <;>
                simp [hp, applyDone_getElem_ne, applyFail_getElem_ne,
                  applyMark_getElem_ne, hne]
            · simp [hp]

theorem mark_done_at (store : List ProcessedFile) (i sz : Nat) (nm : String)
    (fd : ProcessedFile) (h : store[i]? = some fd) :
    (applyDone (applyMark store i) i sz nm)[i]? =
      some { fd with
             status := Status.done
             resultSize := some sz
             outputName := some nm } := by
  have hi : i < store.length := (List.getElem?_eq_some.mp h).1
  unfold applyMark
  rw [h]
  unfold applyDone
  rw [List.getElem?_set_self (by simpa using hi)]
  rw [List.getElem?_set_self (by simpa using hi)]

theorem mark_fail_at (store : List ProcessedFile) (i : Nat) (msg : String)
    (fd : ProcessedFile) (h : store[i]? = some fd) :
    (applyFail (applyMark store i) i msg)[i]? =
      some { fd with status := Status.error, error := some msg } := by
  have hi : i < store.length := (List.getElem?_eq_some.mp h).1
  unfold applyMark
  rw [h]
  unfold applyFail
  rw [List.getElem?_set_self (by simpa using hi)]
  rw [List.getElem?_set_self (by simpa using hi)]

theorem runSeg_get (o : Nat → Outcome) (m : EncoderType → String)
    (cfg : PipelineConfig) (snap : List ProcessedFile) :
    ∀ (n i j : Nat) (store : List ProcessedFile) (fd : ProcessedFile),
      snap[j]? = some fd → store[j]? = some fd → i ≤ j → j < i + n →
      ((runSeg o m cfg snap i n store).1)[j]? =
        some (processedRecord fd (o j) (mkOutputName cfg m fd.original.name)) := by
  intro n
  induction n with
  | zero => intro i j store fd _ _ hij hlt; omega
  | succ n ih =>
      intro i j store fd hsnap hstore hij hlt
      simp only [runSeg]
      rcases Nat.eq_or_lt_of_le hij with heq | hlt'
      · subst heq
        rw [runSeg_untouched o m cfg snap n (i + 1) i _ (Or.inl (by omega))]
        unfold runIter
        rw [hsnap]
        by_cases hp : fd.status = Status.pending
        · cases ho : o i with
          | ok sz =>
              simp only [hp, if_true]
              rw [mark_done_at store i sz _ fd hstore]
              simp [processedRecord, hp, ho]
          | err msg =>
              simp only [hp, if_true]
              rw [mark_fail_at store i msg fd hstore]
              simp [processedRecord, hp, ho]
        · simp only [hp, if_false]
          rw [hstore]
          simp [processedRecord, hp]
      · rw [ih (i + 1) j _ fd hsnap _ (by omega) (by omega)]
        rw [runIter_fst_getElem_ne o m cfg snap i j store (by omega)]
        exact hstore

theorem runIter_snd (o : Nat → Outcome) (m : EncoderType → String)
    (cfg : PipelineConfig) (snap : List ProcessedFile) (i : Nat)
    (store : List ProcessedFile) :
    (runIter o m cfg snap i store).2 =
      match snap[i]? with
      | some fd =>
          if fd.status = Status.pending then
            some ⟨i, cfg.selectedFormat, cfg.quality, cfg.resize⟩
          else none
      | none => none := by
  unfold runIter
  cases snap[i]? with
  | none => rfl
  | some fd =>
      by_cases hp : fd.status = Status.pending
      · cases o i <;> simp [hp]
      · simp [hp]

theorem runSeg_indices (o : Nat → Outcome) (m : EncoderType → String)
    (cfg : PipelineConfig) (snap : List ProcessedFile) :
    ∀ (n i : Nat) (store : List ProcessedFile),
      ((runSeg o m cfg snap i n store).2).map Dispatch.index =
        pendingIndices snap i n := by
  intro n
  induction n with
  | zero => intro i store; rfl
  | succ n ih =>
      intro i store
      simp only [runSeg, pendingIndices, List.map_append]
      rw [runIter_snd, ih]
      cases snap[i]? with
      | none => rfl
      | some fd =>
          by_cases hp : fd.status = Status.pending <;> simp [hp]

theorem runSeg_dispatch_mem (o : Nat → Outcome) (m : EncoderType → String)
    (cfg : PipelineConfig) (snap : List ProcessedFile) :
    ∀ (n i : Nat) (store : List ProcessedFile) (d : Dispatch),
      d ∈ (runSeg o m cfg snap i n store).2 →
      i ≤ d.index ∧ d.index < snap.length ∧
        d.format = cfg.selectedFormat ∧ d.quality = cfg.quality ∧
        d.resize = cfg.resize := by
  intro n
  induction n with
  | zero => intro i store d hd; simp [runSeg] at hd
  | succ n ih =>
      intro i store d hd
      simp only [runSeg, List.mem_append] at hd
      rcases hd with hd | hd
      · rw [runIter_snd] at hd
        cases h : snap[i]? with
        | none => rw [h] at hd; simp at hd
        | some fd =>
            rw [h] at hd
            by_cases hp : fd.status = Status.pending
            · simp only [hp, if_true] at hd
              simp only [Option.toList_some, List.mem_singleton] at hd
              subst hd
              have hi : i < snap.length := (List.getElem?_eq_some.mp h).1
              exact ⟨Nat.le_refl _, hi, rfl, rfl, rfl⟩
            · simp [hp] at hd
      · have := ih (i + 1) _ d hd
        exact ⟨by omega, this.2.1, this.2.2⟩

theorem runSeg_no_pending (o : Nat → Outcome) (m : EncoderType → String)
    (cfg : PipelineConfig) (snap : List ProcessedFile)
    (h : ∀ r ∈ snap, r.status ≠ Status.pending) :
    ∀ (n i : Nat) (store : List ProcessedFile),
      runSeg o m cfg snap i n store = (store, []) := by
  intro n
  induction n with
  | zero => intro i store; rfl
  | succ n ih =>
      intro i store
      have hiter : runIter o m cfg snap i store = (store, none) := by
        unfold runIter
        cases hs : snap[i]? with
        | none => rfl
        | some fd =>
            have hmem : fd ∈ snap := List.getElem?_mem hs
            simp [h fd hmem]
      simp only [runSeg, hiter, ih]
      rfl

/-! ## Helper lemmas about the statistics -/

theorem specBytesSavedNZ_cons (f : ProcessedFile) (l : List ProcessedFile) :
    specBytesSavedNZ (f :: l) =
      (if f.status = Status.done ∧ f.resultSize ≠ none ∧ f.resultSize ≠ some 0
        then (f.original.size : Int) - ((f.resultSize.getD 0 : Nat) : Int)
        else 0)
      + specBytesSavedNZ l := by
  unfold specBytesSavedNZ
  rw [List.filter_cons]
  by_cases h : f.status = Status.done ∧ f.resultSize ≠ none ∧ f.resultSize ≠ some 0
  · simp [h]
  · simp [h]

theorem foldl_savedOf (l : List ProcessedFile) :
    ∀ acc : Int, l.foldl savedOf acc = acc + specBytesSavedNZ l := by
  induction l with
  | nil => intro acc; simp [specBytesSavedNZ]
  | cons f l ih =>
      intro acc
      rw [List.foldl_cons, ih, specBytesSavedNZ_cons]
      have hstep : savedOf acc f =
          acc +
            (if f.status = Status.done ∧ f.resultSize ≠ none ∧ f.resultSize ≠ some 0
              then (f.original.size : Int) - ((f.resultSize.getD 0 : Nat) : Int)
              else 0) := by
        unfold savedOf
        cases hr : f.resultSize with
        | none => simp [hr]
        | some sz =>
            simp only [hr]
            by_cases hd : f.status = Status.done
            · by_cases hz : sz = 0
              · simp [hd, hz]
              · simp [hd, hz]
            · simp [hd]
      rw [hstep]
      ring

/-! ## Helper lemmas about the lifecycle invariant -/

theorem step_preserves_invariant (s s' : List ProcessedFile) (hstep : Step s s')
    (hinv : RecordInvariant s) : RecordInvariant s' := by
  cases hstep with
  | append f =>
      intro i r hi
      rcases Nat.lt_trichotomy i s.length with hlt | heq | hgt
      · rw [List.getElem?_append_left hlt] at hi
        exact hinv i r hi
      · subst heq
        rw [List.getElem?_concat_length] at hi
        injection hi with hi
        subst hi
        refine ⟨?_, ?_, ?_⟩ <;> simp [freshPending]
      · rw [List.getElem?_eq_none (by simp; omega)] at hi
        cases hi
  | markProcessing i0 r0 h0 hp0 =>
      intro i r hi
      by_cases he : i0 = i
      · subst he
        have hlen : i0 < s.length := (List.getElem?_eq_some.mp h0).1
        rw [List.getElem?_set_self hlen] at hi
        injection hi with hi
        subst hi
        have h3 := (hinv i0 r0 h0).2.2 (Or.inl hp0)
        refine ⟨?_, ?_, ?_⟩ <;> simp [h3.1, h3.2]
      · rw [List.getElem?_set_ne he] at hi
        exact hinv i r hi
  | completeDone i0 r0 sz nm h0 hp0 =>
      intro i r hi
      by_cases he : i0 = i
      · subst he
        have hlen : i0 < s.length := (List.getElem?_eq_some.mp h0).1
        rw [List.getElem?_set_self hlen] at hi
        injection hi with hi
        subst hi
        have h3 := (hinv i0 r0 h0).2.2 (Or.inr hp0)
        refine ⟨?_, ?_, ?_⟩ <;> simp [h3.1, h3.2]
      · rw [List.getElem?_set_ne he] at hi
        exact hinv i r hi
  | completeError i0 r0 msg h0 hp0 =>
      intro i r hi
      by_cases he : i0 = i
      · subst he
        have hlen : i0 < s.length := (List.getElem?_eq_some.mp h0).1
        rw [List.getElem?_set_self hlen] at hi
        injection hi with hi
        subst hi
        have h3 := (hinv i0 r0 h0).2.2 (Or.inr hp0)
        refine ⟨?_, ?_, ?_⟩ <;> simp [h3.1, h3.2]
      · rw [List.getElem?_set_ne he] at hi
        exact hinv i r hi
  | clear =>
      intro i r hi
      simp at hi

theorem reachable_invariant (s : List ProcessedFile) (h : Reachable s) :
    RecordInvariant s := by
  induction h with
  | init => intro i r hi; simp at hi
  | next _ hstep ih => exact step_preserves_invariant _ _ hstep ih

theorem step_monotone (s s' : List ProcessedFile) (hstep : Step s s') :
    MonotoneStep s s' := by
  cases hstep with
  | append f =>
      intro i r r' hi hi'
      have hlen : i < s.length := (List.getElem?_eq_some.mp hi).1
      rw [List.getElem?_append_left hlen, hi] at hi'
      injection hi' with hi'
      exact Or.inl (by rw [hi'])
  | markProcessing i0 r0 h0 hp0 =>
      intro i r r' hi hi'
      by_cases he : i0 = i
      · subst he
        rw [h0] at hi
        injection hi with hi
        subst hi
        have hlen : i0 < s.length := (List.getElem?_eq_some.mp h0).1
        rw [List.getElem?_set_self hlen] at hi'
        injection hi' with hi'
        subst hi'
        exact Or.inr (Or.inl ⟨hp0, rfl⟩)
      · rw [List.getElem?_set_ne he, hi] at hi'
        injection hi' with hi'
        exact Or.inl (by rw [hi'])
  | completeDone i0 r0 sz nm h0 hp0 =>
      intro i r r' hi hi'
      by_cases he : i0 = i
      · subst he
        rw [h0] at hi
        injection hi with hi
        subst hi
        have hlen : i0 < s.length := (List.getElem?_eq_some.mp h0).1
        rw [List.getElem?_set_self hlen] at hi'
        injection hi' with hi'
        subst hi'
        exact Or.inr (Or.inr (Or.inl ⟨hp0, rfl⟩))
      · rw [List.getElem?_set_ne he, hi] at hi'
        injection hi' with hi'
        exact Or.inl (by rw [hi'])
  | completeError i0 r0 msg h0 hp0 =>
      intro i r r' hi hi'
      by_cases he : i0 = i
      · subst he
        rw [h0] at hi
        injection hi with hi
        subst hi
        have hlen : i0 < s.length := (List.getElem?_eq_some.mp h0).1
        rw [List.getElem?_set_self hlen] at hi'
        injection hi' with hi'
        subst hi'
        exact Or.inr (Or.inr (Or.inr ⟨hp0, rfl⟩))
      · rw [List.getElem?_set_ne he, hi] at hi'
        injection hi' with hi'
        exact Or.inl (by rw [hi'])
  | clear =>
      intro i r r' hi hi'
      simp at hi'

/-! ## Claim theorems -/

/-- C3: for source dimensions at least 1 and an enabled Dimensions-mode
resize with `maintainAspectRatio`, the target is
`(round(requestedHeight * aspect), requestedHeight)` when
`requestedWidth / requestedHeight > aspect` and
`(requestedWidth, round(requestedWidth / aspect))` otherwise, with
`aspect = sourceWidth / sourceHeight`; and in every mode both computed
axes are clamped to a minimum of 1 after rounding. -/
theorem c3_resize_geometry (rs : ResizeSettings) (w h : Nat)
    (hw : 1 ≤ w) (hh : 1 ≤ h) (hen : rs.enabled = true)
    (hrw : 1 ≤ rs.width) (hrh : 1 ≤ rs.height) :
    (rs.mode = ResizeMode.dimensions → rs.maintainAspectRatio = true →
      computeGeometry rs w h =
        (if (rs.width : ℚ) / (rs.height : ℚ) > (w : ℚ) / (h : ℚ) then
          (max 1 (jsRound ((rs.height : ℚ) * ((w : ℚ) / (h : ℚ)))), rs.height)
        else
          (rs.width, max 1 (jsRound ((rs.width : ℚ) / ((w : ℚ) / (h : ℚ)))))))
    ∧ 1 ≤ (computeGeometry rs w h).1 ∧ 1 ≤ (computeGeometry rs w h).2 := by
  refine ⟨?_, ?_, ?_⟩
  · intro hmode hmar
    by_cases hcmp : (rs.width : ℚ) / (rs.height : ℚ) > (w : ℚ) / (h : ℚ)
    · simp [computeGeometry, hen, hmode, hmar, hcmp, max_eq_right hrh]
    · simp [computeGeometry, hen, hmode, hmar, hcmp, max_eq_right hrw]
  · simp only [computeGeometry, hen, if_true]
    exact le_max_left 1 _
  · simp only [computeGeometry, hen, if_true]
    exact le_max_left 1 _

/-- Witness for C3 at the spec's end-to-end scenario: a 4000 by 3000
source with a 1000 by 1000 aspect-preserving dimensions resize. -/
theorem c3_witness :
    (1 ≤ 4000 ∧ 1 ≤ 3000 ∧ rsDim1000.enabled = true ∧
      1 ≤ rsDim1000.width ∧ 1 ≤ rsDim1000.height)
    ∧ ((rsDim1000.mode = ResizeMode.dimensions →
        rsDim1000.maintainAspectRatio = true →
        computeGeometry rsDim1000 4000 3000 =
          (if (rsDim1000.width : ℚ) / (rsDim1000.height : ℚ) >
              ((4000 : Nat) : ℚ) / ((3000 : Nat) : ℚ) then
            (max 1 (jsRound ((rsDim1000.height : ℚ) *
              (((4000 : Nat) : ℚ) / ((3000 : Nat) : ℚ)))), rsDim1000.height)
          else
            (rsDim1000.width, max 1 (jsRound ((rsDim1000.width : ℚ) /
              (((4000 : Nat) : ℚ) / ((3000 : Nat) : ℚ)))))))
      ∧ 1 ≤ (computeGeometry rsDim1000 4000 3000).1
      ∧ 1 ≤ (computeGeometry rsDim1000 4000 3000).2) :=
  ⟨⟨by decide, by decide, rfl, by decide, by decide⟩,
   c3_resize_geometry rsDim1000 4000 3000 (by decide) (by decide) rfl
     (by decide) (by decide)⟩

/-- C9: running the driver on a store with no Pending record is a
no-op: the state is returned unchanged and no compute-bridge dispatch
is issued. -/
theorem c9_idempotent (o : Nat → Outcome) (m : EncoderType → String)
    (s : ComponentState)
    (h : ∀ r ∈ s.processedFiles, r.status ≠ Status.pending) :
    processFiles o m s = (s, []) := by
  cases s with
  | mk files proc cfg =>
      cases proc with
      | true => simp [processFiles]
      | false =>
          simp only [processFiles]
          rw [runSeg_no_pending o m cfg files (by simpa using h)]
          simp

/-- C8: with records A, B, C appended in that order and all Pending, a
single run issues its compute-bridge dispatches in insertion order:
first A, then B, then C. -/
theorem c8_ordering (o : Nat → Outcome) (m : EncoderType → String)
    (s : ComponentState) (a b c : ProcessedFile)
    (hp : s.processing = false)
    (hs : s.processedFiles = [a, b, c])
    (ha : a.status = Status.pending) (hb : b.status = Status.pending)
    (hc : c.status = Status.pending) :
    ((processFiles o m s).2).map Dispatch.index = [0, 1, 2] := by
  simp only [processFiles, hp, Bool.false_eq_true, if_false]
  rw [runSeg_indices, hs]
  simp [pendingIndices, ha, hb, hc]

/-- Witness for C8 on three fresh records. -/
theorem c8_witness :
    stateABC.processing = false ∧
    ((processFiles oracleOk mimeM stateABC).2).map Dispatch.index = [0, 1, 2] :=
  ⟨rfl,
   c8_ordering oracleOk mimeM stateABC (freshPending fileA) (freshPending fileB)
     (freshPending fileC) rfl rfl rfl rfl rfl⟩

/-- C4: one record's failure never aborts the batch walk: with A, B, C
pending in that order, B's decode failing and A's and C's pipelines
succeeding, the run ends with statuses Done, Error, Done, the failure
message recorded on B, and a completed count of 2. -/
theorem c4_isolation (o : Nat → Outcome) (m : EncoderType → String)
    (s : ComponentState) (a b c : ProcessedFile) (msgB : String) (sa sc : Nat)
    (hp : s.processing = false)
    (hs : s.processedFiles = [a, b, c])
    (ha : a.status = Status.pending) (hb : b.status = Status.pending)
    (hc : c.status = Status.pending)
    (o0 : o 0 = Outcome.ok sa) (o1 : o 1 = Outcome.err msgB)
    (o2 : o 2 = Outcome.ok sc) :
    ((processFiles o m s).1.processedFiles).map ProcessedFile.status
        = [Status.done, Status.error, Status.done]
    ∧ (((processFiles o m s).1.processedFiles)[1]?).bind ProcessedFile.error
        = some msgB
    ∧ getCompletedCount ((processFiles o m s).1.processedFiles) = 2 := by
  simp only [processFiles, hp, Bool.false_eq_true, if_false]
  rw [hs]
  simp [runSeg, runIter, applyMark, applyDone, applyFail, ha, hb, hc, o0, o1,
    o2, getCompletedCount]

/-- Witness for C4: three fresh records under the oracle in which B's
decode fails. -/
theorem c4_witness :
    ((processFiles oracleC4 mimeM stateABC).1.processedFiles).map
        ProcessedFile.status = [Status.done, Status.error, Status.done]
    ∧ (((processFiles oracleC4 mimeM stateABC).1.processedFiles)[1]?).bind
        ProcessedFile.error = some "Error: Could not decode image"
    ∧ getCompletedCount ((processFiles oracleC4 mimeM stateABC).1.processedFiles)
        = 2 :=
  c4_isolation oracleC4 mimeM stateABC (freshPending fileA) (freshPending fileB)
    (freshPending fileC) "Error: Could not decode image" 300 200 rfl rfl rfl
    rfl rfl rfl rfl rfl

/-- C7: a record completed by a run carries the output name
`prefix + stripExtension(original.name) + suffix + "." +
extensionFor(format)`, `extensionFor` being the mime subtype of the
snapshot format's encoder descriptor. -/
theorem c7_output_naming (o : Nat → Outcome) (m : EncoderType → String)
    (s : ComponentState) (i : Nat) (r : ProcessedFile) (sz : Nat)
    (hp : s.processing = false)
    (hr : s.processedFiles[i]? = some r)
    (hpend : r.status = Status.pending)
    (ho : o i = Outcome.ok sz) :
    (((processFiles o m s).1.processedFiles)[i]?).bind ProcessedFile.outputName
      = some (s.config.output.prefixStr ++ stripExtension r.original.name
          ++ s.config.output.suffixStr ++ "."
          ++ mimeSubtype (m s.config.selectedFormat)) := by
  have hi : i < s.processedFiles.length := (List.getElem?_eq_some.mp hr).1
  simp only [processFiles, hp, Bool.false_eq_true, if_false]
  rw [runSeg_get o m s.config s.processedFiles s.processedFiles.length 0 i
    s.processedFiles r hr hr (Nat.zero_le i) (by omega)]
  simp [processedRecord, hpend, ho, mkOutputName]

/-- Witness for C7: record 0 of three fresh records, named with the
`img-` prefix and `-opt` suffix of `cfgA`. -/
theorem c7_witness :
    (((processFiles oracleOk mimeM stateABC).1.processedFiles)[0]?).bind
        ProcessedFile.outputName
      = some (stateABC.config.output.prefixStr
          ++ stripExtension (freshPending fileA).original.name
          ++ stateABC.config.output.suffixStr ++ "."
          ++ mimeSubtype (mimeM stateABC.config.selectedFormat)) :=
  c7_output_naming oracleOk mimeM stateABC 0 (freshPending fileA) 5 rfl rfl
    rfl rfl

/-- C5: the driver is single-flight.  First, a run trigger arriving
while a run is active is a no-op (no mutation, no dispatch).  Second, a
record appended after `k` iterations of an active run is left exactly
as appended (still Pending) when the run ends, and no dispatch of that
run targets it: every dispatch index stays below the run-start snapshot
length. -/
theorem c5_single_flight (o : Nat → Outcome) (m : EncoderType → String)
    (sActive : ComponentState) (cfg : PipelineConfig)
    (snap : List ProcessedFile) (k : Nat) (f : FileInfo)
    (hact : sActive.processing = true) :
    processFiles o m sActive = (sActive, [])
    ∧ ((runWithMidAppend o m cfg snap k (freshPending f)).1)[snap.length]?
        = some (freshPending f)
    ∧ ∀ d ∈ (runWithMidAppend o m cfg snap k (freshPending f)).2,
        d.index < snap.length := by
  refine ⟨?_, ?_, ?_⟩
  · simp [processFiles, hact]
  · simp only [runWithMidAppend]
    rw [runSeg_untouched o m cfg snap (snap.length - k) k snap.length _
      (Or.inr (Nat.le_refl _))]
    have hlen : ((runSeg o m cfg snap 0 k snap).1).length = snap.length := by
      rw [runSeg_length]
    calc ((runSeg o m cfg snap 0 k snap).1 ++ [freshPending f])[snap.length]?
        = ((runSeg o m cfg snap 0 k snap).1
            ++ [freshPending f])[((runSeg o m cfg snap 0 k snap).1).length]? := by
          rw [hlen]
      _ = some (freshPending f) := List.getElem?_concat_length _ _
  · intro d hd
    simp only [runWithMidAppend, List.mem_append] at hd
    rcases hd with hd | hd
    · exact (runSeg_dispatch_mem o m cfg snap k 0 snap d hd).2.1
    · exact (runSeg_dispatch_mem o m cfg snap (snap.length - k) k _ d hd).2.1

/-- Witness for C5: a run active on two records, an append of a fresh
fourth file after one iteration. -/
theorem c5_witness :
    stateActive.processing = true
    ∧ (processFiles oracleOk mimeM stateActive = (stateActive, [])
      ∧ ((runWithMidAppend oracleOk mimeM cfgA stateAB.processedFiles 1
            (freshPending fileD)).1)[stateAB.processedFiles.length]?
          = some (freshPending fileD)
      ∧ ∀ d ∈ (runWithMidAppend oracleOk mimeM cfgA stateAB.processedFiles 1
            (freshPending fileD)).2,
          d.index < stateAB.processedFiles.length) :=
  ⟨rfl,
   c5_single_flight oracleOk mimeM stateActive cfgA stateAB.processedFiles 1
     fileD rfl⟩

/-- C2 counterexample: two pending records, quality changed from 75 to
90 after record 0's iteration and before record 1's dispatch, within
one run.  Record 1's dispatch still carries quality 75: it is NOT
processed with the updated configuration, contrary to the claim. -/
theorem c2_counterexample :
    ((runWithMidConfigChange oracleOk mimeM stateAB 1 cfgB).2).map
        (fun d => (d.index, d.quality)) = [(0, 75), (1, 75)]
    ∧ cfgB.quality = 90
    ∧ ∀ d ∈ (runWithMidConfigChange oracleOk mimeM stateAB 1 cfgB).2,
        d.quality ≠ cfgB.quality := by
  refine ⟨by decide, by decide, by decide⟩

/-- C2 amended: the configuration is snapshotted once per run.  Every
dispatch of a run during which the configuration changes carries the
run-start configuration (so a record dispatched after the change still
uses the old configuration); every dispatch of a later run, triggered
after the change, carries the updated configuration. -/
theorem c2_amended (o : Nat → Outcome) (m : EncoderType → String)
    (s : ComponentState) (k : Nat) (cfg1 : PipelineConfig) (f : FileInfo)
    (hp : s.processing = false) :
    (∀ d ∈ (runWithMidConfigChange o m s k cfg1).2,
        d.format = s.config.selectedFormat ∧ d.quality = s.config.quality ∧
          d.resize = s.config.resize)
    ∧ (∀ d ∈ (processFiles o m
          (appendFile (runWithMidConfigChange o m s k cfg1).1 f)).2,
        d.format = cfg1.selectedFormat ∧ d.quality = cfg1.quality ∧
          d.resize = cfg1.resize) := by
  constructor
  · intro d hd
    simp only [runWithMidConfigChange, hp, Bool.false_eq_true, if_false,
      List.mem_append] at hd
    rcases hd with hd | hd
    · exact (runSeg_dispatch_mem o m s.config _ k 0 _ d hd).2.2
    · exact (runSeg_dispatch_mem o m s.config _ _ _ _ d hd).2.2
  · intro d hd
    simp only [runWithMidConfigChange, hp, Bool.false_eq_true, if_false,
      appendFile, processFiles] at hd
    exact (runSeg_dispatch_mem o m cfg1 _ _ 0 _ d hd).2.2

/-- Witness for the amended C2: quality changed from 75 (in `cfgA`) to
90 (in `cfgB`) after one iteration; a fourth file appended afterwards
is processed by the next run with the updated configuration. -/
theorem c2_witness :
    stateAB.processing = false
    ∧ ((∀ d ∈ (runWithMidConfigChange oracleOk mimeM stateAB 1 cfgB).2,
          d.format = stateAB.config.selectedFormat ∧
            d.quality = stateAB.config.quality ∧
            d.resize = stateAB.config.resize)
      ∧ ∀ d ∈ (processFiles oracleOk mimeM
            (appendFile (runWithMidConfigChange oracleOk mimeM stateAB 1 cfgB).1
              fileD)).2,
          d.format = cfgB.selectedFormat ∧ d.quality = cfgB.quality ∧
            d.resize = cfgB.resize) :=
  ⟨rfl, c2_amended oracleOk mimeM stateAB 1 cfgB fileD rfl⟩

/-- C1: in the clear-during-flight scenario the in-flight request's
cancellation token is never aborted (`clearAll` holds no reference to
it and `abort()` is called nowhere), and the late-arriving completion
IS applied to the cleared store: it re-creates a ghost Done record (with
no original file) at the dispatch index, so the final store is not
empty.  This contradicts the claimed behavior on both counts. -/
theorem c1_clear_inflight :
    c1Run.inFlightAborted = false
    ∧ c1Run.files =
        [some { original := none
                status := some Status.done
                resultSize := some 420
                error := none
                outputName := some "photo.jpeg" }]
    ∧ c1Run.files ≠ [] := by
  refine ⟨rfl, by decide, by decide⟩

/-- C6 counterexample: a reachable store holding one Done record whose
encode produced a 0-byte blob.  `getTotalSaved` skips it (the JS
truthiness test on `f.resultSize` fails at 0), while the claimed
formula counts its full original size: the two disagree. -/
theorem c6_counterexample :
    Reachable c6Bad ∧ getTotalSaved c6Bad ≠ specBytesSaved c6Bad := by
  constructor
  · have h1 : Reachable [freshPending { name := "pic.png", size := 10 }] :=
      Reachable.next Reachable.init
        (Step.append [] { name := "pic.png", size := 10 })
    have h2 : Reachable
        [{ original := { name := "pic.png", size := 10 }
           status := Status.processing
           resultSize := none
           error := none
           outputName := none }] :=
      Reachable.next h1
        (Step.markProcessing _ 0 (freshPending { name := "pic.png", size := 10 })
          rfl rfl)
    exact Reachable.next h2
      (Step.completeDone _ 0
        { original := { name := "pic.png", size := 10 }
          status := Status.processing
          resultSize := none
          error := none
          outputName := none }
        0 "img-pic-opt.jpeg" rfl rfl)
  · decide

/-- C6 amended: on every reachable store, `getTotalSaved` equals the
sum of `original.byteSize - result.byteSize` over the Done records
whose result size is present and nonzero (a Done record with an empty
result contributes nothing), and `getCompletedCount` equals the number
of Done records. -/
theorem c6_stats (s : List ProcessedFile) (h : Reachable s) :
    getTotalSaved s = specBytesSavedNZ s
    ∧ getCompletedCount s = specDoneCount s := by
  refine ⟨?_, ?_⟩
  · unfold getTotalSaved
    rw [foldl_savedOf]
    exact zero_add _
  · unfold getCompletedCount specDoneCount
    exact (List.countP_eq_length_filter _ s).symm

/-- Witness for the amended C6: the store holding one completed
record. -/
theorem c6_witness :
    Reachable stateDoneOnly.processedFiles
    ∧ getTotalSaved stateDoneOnly.processedFiles
        = specBytesSavedNZ stateDoneOnly.processedFiles
    ∧ getCompletedCount stateDoneOnly.processedFiles
        = specDoneCount stateDoneOnly.processedFiles := by
  have h1 : Reachable [freshPending fileA] :=
    Reachable.next Reachable.init (Step.append [] fileA)
  have h2 : Reachable
      [{ original := fileA
         status := Status.processing
         resultSize := none
         error := none
         outputName := none }] :=
    Reachable.next h1 (Step.markProcessing _ 0 (freshPending fileA) rfl rfl)
  have h3 : Reachable stateDoneOnly.processedFiles :=
    Reachable.next h2
      (Step.completeDone _ 0
        { original := fileA
          status := Status.processing
          resultSize := none
          error := none
          outputName := none }
        120 "img-a-opt.jpeg" rfl rfl)
  exact ⟨h3, (c6_stats _ h3).1, (c6_stats _ h3).2⟩

/-- C10: every reachable store satisfies the lifecycle invariant
(result present iff Done, error present iff Error, neither while
Pending or Processing), and every store mutation the component can
perform keeps each record's status or moves it along
Pending to Processing to Done-or-Error, never regressing. -/
theorem c10_lifecycle (s : List ProcessedFile) (h : Reachable s) :
    RecordInvariant s ∧ ∀ s', Step s s' → MonotoneStep s s' :=
  ⟨reachable_invariant s h, fun s' hs => step_monotone s s' hs⟩

/-- Witness for C10: the reachable one-record store. -/
theorem c10_witness :
    Reachable [freshPending fileA] ∧ RecordInvariant [freshPending fileA] := by
  have h : Reachable [freshPending fileA] :=
    Reachable.next Reachable.init (Step.append [] fileA)
  exact ⟨h, (c10_lifecycle _ h).1⟩

/-- Witness for C9: the store whose only record is already Done. -/
theorem c9_witness :
    (∀ r ∈ stateDoneOnly.processedFiles, r.status ≠ Status.pending)
    ∧ processFiles oracleOk mimeM stateDoneOnly = (stateDoneOnly, []) :=
  ⟨by decide, c9_idempotent oracleOk mimeM stateDoneOnly (by decide)⟩
